import Mathlib

/-!
Verification development for the AI-BUILDER material-preview pipeline.

Shallow embedding of the pipeline's core algorithms:
* `ImagePrep` — geometry-preserving transform (`lib/imagePrep.ts`):
  supported-size selection, contain-scale placement, crop recording,
  and the reverse (unpad) transform.
* `CacheKey` — stable stringification and the 32-bit FNV-1a hash used
  for refinement cache keys (`app/api/refine/route.ts`, `app/build/page.tsx`).
* `Refine` — an event-loop model of the debounced, cancellable
  refinement scheduler (`app/build/page.tsx`).
* `MaskPrec` — mask-override precedence in the live compositor and in
  overlay-asset baking (`app/build/page.tsx`, wizard provider).
* `Wizard` — the session container's mask-override / overlay-asset
  bookkeeping (wizard provider).
* `Masking` — polygon rasterization, the external mask service call and
  its fallback policy (`lib/masking.ts`).
* `Overlay` — the overlay precompute progress reporting
  (`buildOverlayAssetsClient` in the wizard provider).
* `Store` — TTL job store and the job-status route (`lib/store.ts`,
  job status GET route).

Machine arithmetic: JavaScript `Math.round`/`Math.floor` over floats are
embedded as exact rational arithmetic with explicit floors; the 32-bit
hash is embedded as naturals reduced `% 2^32`.
-/

namespace ImagePrep

/-- The three model-supported output sizes (`SupportedImageSize`). -/
inductive SupportedImageSize
  | s1024x1024
  | s1536x1024
  | s1024x1536
deriving DecidableEq, Repr

open SupportedImageSize

/-- `SIZE_MAP[..].w` -/
def sizeW : SupportedImageSize → ℕ
  | s1024x1024 => 1024
  | s1536x1024 => 1536
  | s1024x1536 => 1024

/-- `SIZE_MAP[..].h` -/
def sizeH : SupportedImageSize → ℕ
  | s1024x1024 => 1024
  | s1536x1024 => 1024
  | s1024x1536 => 1536

/-- Aspect ratio `SIZE_MAP[c].w / SIZE_MAP[c].h` of a supported size. -/
def aspect (c : SupportedImageSize) : ℚ := (sizeW c : ℚ) / (sizeH c : ℚ)

/-- The candidate list, in source order. -/
def candidates : List SupportedImageSize := [s1024x1024, s1536x1024, s1024x1536]

/-- One iteration of the `pickClosestSize` loop. The accumulator holds
`(best, bestDiff)`; `none` stands for the initial `Infinity`. -/
def pickStep (r : ℚ) (acc : SupportedImageSize × Option ℚ) (c : SupportedImageSize) :
    SupportedImageSize × Option ℚ :=
  let d := |r - aspect c|
  match acc.2 with
  | none => (c, some d)
  | some bd => if d < bd then (c, some d) else acc

/-- `pickClosestSize(w, h)`: scan the candidates keeping the first with the
strictly smallest `|w/h - candidateRatio|`. -/
def pickClosestSize (w h : ℕ) : SupportedImageSize :=
  let r : ℚ := (w : ℚ) / (h : ℚ)
  (candidates.foldl (pickStep r) (s1024x1024, none)).1

/-- JavaScript `Math.round` (round half toward +∞) on exact rationals. -/
def jsRound (x : ℚ) : ℤ := ⌊x + 1/2⌋

/-- The crop rectangle recorded in `PreparedImageInfo.crop`. -/
structure Crop where
  left : ℤ
  top : ℤ
  width : ℤ
  height : ℤ
deriving DecidableEq, Repr

/-- `PreparedImageInfo` as recorded by `prepareImageForEdit`. -/
structure PreparedImageInfo where
  size : SupportedImageSize
  width : ℕ
  height : ℕ
  crop : Crop
  originalW : ℕ
  originalH : ℕ
deriving DecidableEq, Repr

/-- Body of `prepareImageForEdit` once dimensions are known readable:
`scale = min(targetW/originalW, targetH/originalH)`,
`resizedW/H = Math.round(original * scale)`,
`left/top = Math.floor((target - resized) / 2)`. -/
def prepareCore (w h : ℕ) : PreparedImageInfo :=
  let size := pickClosestSize w h
  let targetW := sizeW size
  let targetH := sizeH size
  let scale : ℚ := min ((targetW : ℚ) / (w : ℚ)) ((targetH : ℚ) / (h : ℚ))
  let resizedW := jsRound ((w : ℚ) * scale)
  let resizedH := jsRound ((h : ℚ) * scale)
  { size := size
    width := targetW
    height := targetH
    crop := { left := ⌊(((targetW : ℚ)) - (resizedW : ℚ)) / 2⌋
              top := ⌊(((targetH : ℚ)) - (resizedH : ℚ)) / 2⌋
              width := resizedW
              height := resizedH }
    originalW := w
    originalH := h }

/-- `prepareImageForEdit`, dimension/placement part. Input is the decoded
metadata `(w, h)`; a zero (unreadable) dimension is the thrown
"Could not read image dimensions." error, embedded as `none`. -/
def prepareImageForEdit (w h : ℕ) : Option PreparedImageInfo :=
  if w = 0 ∨ h = 0 then none else some (prepareCore w h)

/-- `unpadGeneratedImage`, dimension part, applied to a generated image of
size `gw × gh`. `sharp(...).extract` demands a strictly positive extract
region lying inside the image and throws otherwise (embedded as `none`);
the final `resize(original.width, original.height, fit: "fill")` yields
exactly the original dimensions. -/
def unpadGeneratedImage (gw gh : ℕ) (info : PreparedImageInfo) : Option (ℕ × ℕ) :=
  let c := info.crop
  if 0 ≤ c.left ∧ 0 ≤ c.top ∧ 1 ≤ c.width ∧ 1 ≤ c.height ∧
      c.left + c.width ≤ (gw : ℤ) ∧ c.top + c.height ≤ (gh : ℤ) then
    some (info.originalW, info.originalH)
  else
    none

lemma le_sizeW (s : SupportedImageSize) : (1024 : ℕ) ≤ sizeW s := by cases s <;> norm_num [sizeW]

lemma le_sizeH (s : SupportedImageSize) : (1024 : ℕ) ≤ sizeH s := by cases s <;> norm_num [sizeH]

lemma jsRound_nonneg {x : ℚ} (hx : 0 ≤ x) : 0 ≤ jsRound x := by
  refine Int.le_floor.mpr ?_
  push_cast
  linarith

lemma jsRound_le {t : ℤ} {x : ℚ} (hxt : x ≤ (t : ℚ)) : jsRound x ≤ t := by
  have h : ⌊x + 1/2⌋ < t + 1 := by
    refine Int.floor_lt.mpr ?_
    push_cast
    linarith
  exact Int.lt_add_one_iff.mp h

lemma one_le_jsRound {x : ℚ} (hx : 1/2 ≤ x) : 1 ≤ jsRound x := by
  refine Int.le_floor.mpr ?_
  push_cast
  linarith

lemma floor_half_nonneg {t r : ℤ} (hle : r ≤ t) : 0 ≤ ⌊(((t : ℤ) : ℚ) - ((r : ℤ) : ℚ)) / 2⌋ := by
  refine Int.le_floor.mpr ?_
  push_cast
  have : ((r : ℚ)) ≤ (t : ℚ) := by exact_mod_cast hle
  linarith

lemma floor_half_add_le {t r : ℤ} (h0 : 0 ≤ r) (hle : r ≤ t) :
    ⌊(((t : ℤ) : ℚ) - ((r : ℤ) : ℚ)) / 2⌋ + r ≤ t := by
  have h1 : (⌊((t : ℚ) - (r : ℚ)) / 2⌋ : ℚ) ≤ ((t : ℚ) - (r : ℚ)) / 2 := Int.floor_le _
  have h2 : ((r : ℚ)) ≤ (t : ℚ) := by exact_mod_cast hle
  have h3 : ((0 : ℚ)) ≤ (r : ℚ) := by exact_mod_cast h0
  have h4 : (⌊((t : ℚ) - (r : ℚ)) / 2⌋ : ℚ) + (r : ℚ) ≤ (t : ℚ) := by linarith
  exact_mod_cast h4

/-- Unfolded form of `prepareCore`. -/
lemma prepareCore_def (w h : ℕ) :
    prepareCore w h =
      { size := pickClosestSize w h
        width := sizeW (pickClosestSize w h)
        height := sizeH (pickClosestSize w h)
        crop :=
          { left := ⌊((sizeW (pickClosestSize w h) : ℚ) -
                ((jsRound ((w : ℚ) *
                  min ((sizeW (pickClosestSize w h) : ℚ) / (w : ℚ))
                      ((sizeH (pickClosestSize w h) : ℚ) / (h : ℚ))) : ℤ) : ℚ)) / 2⌋
            top := ⌊((sizeH (pickClosestSize w h) : ℚ) -
                ((jsRound ((h : ℚ) *
                  min ((sizeW (pickClosestSize w h) : ℚ) / (w : ℚ))
                      ((sizeH (pickClosestSize w h) : ℚ) / (h : ℚ))) : ℤ) : ℚ)) / 2⌋
            width := jsRound ((w : ℚ) *
                  min ((sizeW (pickClosestSize w h) : ℚ) / (w : ℚ))
                      ((sizeH (pickClosestSize w h) : ℚ) / (h : ℚ)))
            height := jsRound ((h : ℚ) *
                  min ((sizeW (pickClosestSize w h) : ℚ) / (w : ℚ))
                      ((sizeH (pickClosestSize w h) : ℚ) / (h : ℚ))) }
        originalW := w
        originalH := h } := rfl

/-- The scaled content fits the target: `origW * scale ≤ targetW` (and the
symmetric fact for heights follows by the same lemma with arguments swapped). -/
lemma mul_scale_le {w tW : ℕ} (hw : 1 ≤ w) (s : ℚ) (hs : s ≤ (tW : ℚ) / (w : ℚ)) :
    (w : ℚ) * s ≤ (tW : ℚ) := by
  have hw0 : (0 : ℚ) < (w : ℚ) := by exact_mod_cast hw
  calc (w : ℚ) * s ≤ (w : ℚ) * ((tW : ℚ) / (w : ℚ)) :=
        mul_le_mul_of_nonneg_left hs (le_of_lt hw0)
    _ = (tW : ℚ) := by field_simp

/-- The `PreparedImageInfo` produced for a 1920×1080 input. -/
def info1920x1080 : PreparedImageInfo :=
  { size := s1536x1024, width := 1536, height := 1024,
    crop := { left := 0, top := 80, width := 1536, height := 864 },
    originalW := 1920, originalH := 1080 }

/-- The `PreparedImageInfo` produced for a 1×4000 input (degenerate crop). -/
def info1x4000 : PreparedImageInfo :=
  { size := s1024x1536, width := 1024, height := 1536,
    crop := { left := 512, top := 0, width := 0, height := 1536 },
    originalW := 1, originalH := 4000 }

/-- The `PreparedImageInfo` produced for a 1×3073 input (degenerate crop). -/
def info1x3073 : PreparedImageInfo :=
  { size := s1024x1536, width := 1024, height := 1536,
    crop := { left := 512, top := 0, width := 0, height := 1536 },
    originalW := 1, originalH := 3073 }

/-- C10 (amended), main part: on readable dimensions the recorded crop always
lies inside the target canvas, and it is strictly positive (so `extract`
succeeds) whenever the input aspect ratio is not so extreme that a scaled
dimension rounds to zero. -/
theorem prepare_crop_safe (w h : ℕ) (hw : 1 ≤ w) (hh : 1 ≤ h) (info : PreparedImageInfo)
    (hp : prepareImageForEdit w h = some info) :
    (0 ≤ info.crop.left ∧ 0 ≤ info.crop.top ∧
      0 ≤ info.crop.width ∧ 0 ≤ info.crop.height ∧
      info.crop.left + info.crop.width ≤ (info.width : ℤ) ∧
      info.crop.top + info.crop.height ≤ (info.height : ℤ)) ∧
    (h ≤ 2 * w * sizeH info.size → w ≤ 2 * h * sizeW info.size →
      1 ≤ info.crop.width ∧ 1 ≤ info.crop.height ∧
      unpadGeneratedImage info.width info.height info = some (w, h)) := by
  have hw0 : (0 : ℚ) < (w : ℚ) := by exact_mod_cast hw
  have hh0 : (0 : ℚ) < (h : ℚ) := by exact_mod_cast hh
  have hne : ¬(w = 0 ∨ h = 0) := by omega
  rw [prepareImageForEdit, if_neg hne] at hp
  obtain rfl : prepareCore w h = info := Option.some.inj hp
  rw [prepareCore_def]
  set s := pickClosestSize w h with hs
  set tW := sizeW s with htW
  set tH := sizeH s with htH
  set sc : ℚ := min ((tW : ℚ) / (w : ℚ)) ((tH : ℚ) / (h : ℚ)) with hsc
  have htW0 : (0 : ℚ) < (tW : ℚ) := by
    have := le_sizeW s
    rw [← htW] at this
    exact_mod_cast Nat.lt_of_lt_of_le (by norm_num) this
  have htH0 : (0 : ℚ) < (tH : ℚ) := by
    have := le_sizeH s
    rw [← htH] at this
    exact_mod_cast Nat.lt_of_lt_of_le (by norm_num) this
  have hsc0 : 0 ≤ sc :=
    le_min (div_nonneg (le_of_lt htW0) (le_of_lt hw0)) (div_nonneg (le_of_lt htH0) (le_of_lt hh0))
  have hwsc : (w : ℚ) * sc ≤ (tW : ℚ) := mul_scale_le hw sc (min_le_left _ _)
  have hhsc : (h : ℚ) * sc ≤ (tH : ℚ) := mul_scale_le hh sc (min_le_right _ _)
  have hrw0 : 0 ≤ jsRound ((w : ℚ) * sc) := jsRound_nonneg (mul_nonneg (le_of_lt hw0) hsc0)
  have hrh0 : 0 ≤ jsRound ((h : ℚ) * sc) := jsRound_nonneg (mul_nonneg (le_of_lt hh0) hsc0)
  have hrwle : jsRound ((w : ℚ) * sc) ≤ (tW : ℤ) := jsRound_le (by exact_mod_cast hwsc)
  have hrhle : jsRound ((h : ℚ) * sc) ≤ (tH : ℤ) := jsRound_le (by exact_mod_cast hhsc)
  have hleft0 := floor_half_nonneg hrwle
  have htop0 := floor_half_nonneg hrhle
  have hleftle := floor_half_add_le hrw0 hrwle
  have htople := floor_half_add_le hrh0 hrhle
  refine ⟨⟨by push_cast at hleft0 ⊢; exact hleft0, by push_cast at htop0 ⊢; exact htop0,
      hrw0, hrh0,
      by push_cast at hleftle ⊢; exact hleftle, by push_cast at htople ⊢; exact htople⟩,
    fun hWide hTall => ?_⟩
  have h2w : (h : ℚ) ≤ 2 * (w : ℚ) * (tH : ℚ) := by exact_mod_cast hWide
  have h2h : (w : ℚ) ≤ 2 * (h : ℚ) * (tW : ℚ) := by exact_mod_cast hTall
  have htWge : (1024 : ℚ) ≤ (tW : ℚ) := by exact_mod_cast le_sizeW s
  have htHge : (1024 : ℚ) ≤ (tH : ℚ) := by exact_mod_cast le_sizeH s
  have hwhalf : 1 / 2 ≤ (w : ℚ) * sc := by
    rcases le_total ((tW : ℚ) / (w : ℚ)) ((tH : ℚ) / (h : ℚ)) with hmin | hmin
    · rw [hsc, min_eq_left hmin]
      have heq : (w : ℚ) * ((tW : ℚ) / (w : ℚ)) = (tW : ℚ) := by field_simp
      rw [heq]
      linarith
    · rw [hsc, min_eq_right hmin]
      have heq : (w : ℚ) * ((tH : ℚ) / (h : ℚ)) = (w : ℚ) * (tH : ℚ) / (h : ℚ) := by ring
      rw [heq, le_div_iff₀ hh0]
      linarith
  have hhhalf : 1 / 2 ≤ (h : ℚ) * sc := by
    rcases le_total ((tW : ℚ) / (w : ℚ)) ((tH : ℚ) / (h : ℚ)) with hmin | hmin
    · rw [hsc, min_eq_left hmin]
      have heq : (h : ℚ) * ((tW : ℚ) / (w : ℚ)) = (h : ℚ) * (tW : ℚ) / (w : ℚ) := by ring
      rw [heq, le_div_iff₀ hw0]
      linarith
    · rw [hsc, min_eq_right hmin]
      have heq : (h : ℚ) * ((tH : ℚ) / (h : ℚ)) = (tH : ℚ) := by field_simp
      rw [heq]
      linarith
  have hrw1 : 1 ≤ jsRound ((w : ℚ) * sc) := one_le_jsRound hwhalf
  have hrh1 : 1 ≤ jsRound ((h : ℚ) * sc) := one_le_jsRound hhhalf
  refine ⟨hrw1, hrh1, ?_⟩
  dsimp only [unpadGeneratedImage]
  split_ifs with hcond
  · rfl
  · exact absurd ⟨by push_cast at hleft0 ⊢; exact hleft0, by push_cast at htop0 ⊢; exact htop0,
      hrw1, hrh1,
      by push_cast at hleftle ⊢; exact hleftle, by push_cast at htople ⊢; exact htople⟩ hcond

/-- Witness for `prepare_crop_safe` at the concrete 1920×1080 input. -/
theorem prepare_crop_safe_witness :
    1 ≤ info1920x1080.crop.width ∧ 1 ≤ info1920x1080.crop.height ∧
      unpadGeneratedImage info1920x1080.width info1920x1080.height info1920x1080 =
        some (1920, 1080) :=
  (prepare_crop_safe 1920 1080 (by norm_num) (by norm_num) info1920x1080
      (by simp [prepareImageForEdit, prepareCore, pickClosestSize, candidates, pickStep,
            aspect, sizeW, sizeH, jsRound, info1920x1080, abs]
          norm_num [Int.floor_eq_iff])).2
    (by norm_num [info1920x1080, sizeH]) (by norm_num [info1920x1080, sizeW])

/-- C10 counterexample: a 1×4000 input has readable dimensions, yet the
recorded crop width is `Math.round(1 · min(1024/1, 1536/4000)) = 0`, so the
`extract` step of `unpadGeneratedImage` fails on prepare-produced info. -/
theorem prepare_crop_positive_counterexample :
    prepareImageForEdit 1 4000 = some info1x4000 ∧
      info1x4000.crop.width = 0 ∧
      unpadGeneratedImage info1x4000.width info1x4000.height info1x4000 = none := by
  refine ⟨?_, rfl, rfl⟩
  simp [prepareImageForEdit, prepareCore, pickClosestSize, candidates, pickStep,
    aspect, sizeW, sizeH, jsRound, info1x4000, abs]
  norm_num [Int.floor_eq_iff]

/-- C1: evaluation of the round-trip at the failing input 1×3073. The image
has readable dimensions, but `prepareImageForEdit` records a zero-width crop
(`Math.round(1 · 1536/3073) = 0`), so `unpadGeneratedImage` applied to the
prepared-size image fails instead of returning the original dimensions:
`reverse ∘ prepare` is not the identity there. -/
theorem roundtrip_fails_on_extreme_aspect :
    prepareImageForEdit 1 3073 = some info1x3073 ∧
      info1x3073.crop.width = 0 ∧
      unpadGeneratedImage info1x3073.width info1x3073.height info1x3073 = none := by
  refine ⟨?_, rfl, rfl⟩
  simp [prepareImageForEdit, prepareCore, pickClosestSize, candidates, pickStep,
    aspect, sizeW, sizeH, jsRound, info1x3073, abs]
  norm_num [Int.floor_eq_iff]

/-- C2: `pickClosestSize` returns a supported size whose aspect ratio is
closest (no candidate is strictly closer), and the two concrete selections
from the spec hold. -/
theorem pickClosestSize_closest :
    (∀ w h : ℕ, 1 ≤ w → 1 ≤ h → ∀ c ∈ candidates,
        |((w : ℚ) / (h : ℚ)) - aspect (pickClosestSize w h)| ≤
          |((w : ℚ) / (h : ℚ)) - aspect c|) ∧
    pickClosestSize 1920 1080 = s1536x1024 ∧
    pickClosestSize 1080 1920 = s1024x1536 := by
  refine ⟨?_, ?_, ?_⟩
  · intro w h _ _ c hc
    set r : ℚ := (w : ℚ) / (h : ℚ) with hr
    set d1 := |r - aspect s1024x1024| with hd1
    set d2 := |r - aspect s1536x1024| with hd2
    set d3 := |r - aspect s1024x1536| with hd3
    have hfold : candidates.foldl (pickStep r) (s1024x1024, none) =
        if d3 < (if d2 < d1 then d2 else d1) then (s1024x1536, some d3)
        else if d2 < d1 then (s1536x1024, some d2) else (s1024x1024, some d1) := by
      simp only [candidates, List.foldl, pickStep]
      by_cases h12 : d2 < d1
      · simp [h12]
      · simp [h12]
    have hpick : pickClosestSize w h =
        (candidates.foldl (pickStep r) (s1024x1024, none)).1 := rfl
    rw [hpick, hfold]
    fin_cases hc <;> split_ifs <;> simp_all <;> linarith
  · simp [pickClosestSize, candidates, pickStep, aspect, sizeW, sizeH, abs]
    norm_num
  · simp [pickClosestSize, candidates, pickStep, aspect, sizeW, sizeH, abs]
    norm_num

/-- Witness for `pickClosestSize_closest` at 1920×1080 against
candidate 1024×1024. -/
theorem pickClosestSize_closest_witness :
    |((1920 : ℚ) / (1080 : ℚ)) - aspect (pickClosestSize 1920 1080)| ≤
      |((1920 : ℚ) / (1080 : ℚ)) - aspect s1024x1024| :=
  pickClosestSize_closest.1 1920 1080 (by norm_num) (by norm_num) s1024x1024
    (by simp [candidates])

end ImagePrep

namespace Wizard

/-- Overlay precompute lifecycle status (`overlayStatus`). -/
inductive OverlayStatus
  | idle
  | building
  | ready
  | failed
deriving DecidableEq, Repr

/-- The overlay-relevant slice of `WizardSession`. `overlayAssets` maps
`featureId ↦ (optionId ↦ baked data URL)`; `maskOverrides` maps
`featureId ↦ user-corrected mask data URL`. `selections` and `beforeSrc`
stand for the unrelated fields the `{ ...p }` spread preserves. -/
structure WizardSession where
  beforeSrc : Option String
  selections : List (String × String)
  maskOverrides : List (String × String)
  overlayAssets : List (String × List (String × String))
  overlayStatus : OverlayStatus
  overlayProgress : ℚ
  overlayError : Option String
deriving DecidableEq, Repr

/-- `setMaskOverrides(next)`: store the new overrides and, per the source
comment "Any mask correction invalidates precomputed overlays", reset the
whole overlay cache and its status. -/
def setMaskOverrides (next : List (String × String)) (p : WizardSession) : WizardSession :=
  { p with
    maskOverrides := next
    overlayAssets := []
    overlayStatus := .idle
    overlayProgress := 0
    overlayError := none }

/-- A session holding baked overlay assets for two distinct features. -/
def sessionTwoFeatures : WizardSession :=
  { beforeSrc := some "before.jpg"
    selections := [("walls", "dark")]
    maskOverrides := []
    overlayAssets :=
      [("walls", [("dark", "walls-dark.webp")]),
       ("flooring", [("light", "flooring-light.webp")])]
    overlayStatus := .ready
    overlayProgress := 1
    overlayError := none }

/-- C6 counterexample: setting a mask override for `walls` erases the cached
overlay assets of the untouched feature `flooring` — the other feature's
assets are *not* unchanged. -/
theorem setMaskOverrides_not_feature_local :
    (setMaskOverrides [("walls", "walls-corrected.png")] sessionTwoFeatures).overlayAssets.lookup
        "flooring" = none ∧
      sessionTwoFeatures.overlayAssets.lookup "flooring" =
        some [("light", "flooring-light.webp")] := by
  constructor
  · rfl
  · rfl

/-- C6 (amended): setting or clearing a mask override invalidates the entire
precomputed overlay cache — `overlayAssets` is reset wholesale (all features),
status returns to `idle`, progress to 0 — while the overrides themselves and
unrelated session fields are preserved. -/
theorem setMaskOverrides_resets_all_overlays (next : List (String × String))
    (p : WizardSession) :
    (setMaskOverrides next p).maskOverrides = next ∧
    (setMaskOverrides next p).overlayAssets = [] ∧
    (setMaskOverrides next p).overlayStatus = .idle ∧
    (setMaskOverrides next p).overlayProgress = 0 ∧
    (setMaskOverrides next p).overlayError = none ∧
    (setMaskOverrides next p).selections = p.selections ∧
    (setMaskOverrides next p).beforeSrc = p.beforeSrc :=
  ⟨rfl, rfl, rfl, rfl, rfl, rfl, rfl⟩

end Wizard

namespace Masking

/-- A scene element as consumed by `lib/masking.ts`: its surface type and the
normalized polygon `mask.points_norm`. -/
structure SceneElement where
  type : String
  pointsNorm : List (ℚ × ℚ)
deriving DecidableEq, Repr

/-- The scene graph slice used by masking. -/
structure SceneGraph where
  elements : List SceneElement
deriving DecidableEq, Repr

/-- `clamp01`. -/
def clamp01 (x : ℚ) : ℚ := max 0 (min 1 x)

/-- Append a polygon to the entry of type `t`, inserting a fresh entry at the
end on first sight (JS object key insertion order). -/
def insertPoly (acc : List (String × List (List (ℚ × ℚ)))) (t : String)
    (poly : List (ℚ × ℚ)) : List (String × List (List (ℚ × ℚ))) :=
  match acc with
  | [] => [(t, [poly])]
  | (k, ps) :: rest =>
      if k = t then (k, ps ++ [poly]) :: rest else (k, ps) :: insertPoly rest t poly

/-- `groupPolygonsByType`: polygons with fewer than 3 points are skipped;
coordinates are clamped to `[0,1]`. -/
def groupPolygonsByType (sg : SceneGraph) : List (String × List (List (ℚ × ℚ))) :=
  sg.elements.foldl
    (fun acc el =>
      if 3 ≤ el.pointsNorm.length then
        insertPoly acc el.type (el.pointsNorm.map (fun p => (clamp01 p.1, clamp01 p.2)))
      else acc)
    []

/-- Provenance of a raster mask (`AutoMaskSource`). -/
inductive AutoMaskSource
  | maskService
  | polygonRaster
deriving DecidableEq, Repr

/-- A per-type mask raster: either rasterized from polygons at a working
resolution, or a PNG returned by the mask service. -/
inductive MaskPng
  | fromPolygons (w h : ℕ) (polys : List (List (ℚ × ℚ)))
  | fromService (b64 : String)
deriving DecidableEq, Repr

/-- `AutoMasks`. -/
structure AutoMasks where
  maxSide : ℕ
  width : ℕ
  height : ℕ
  byType : List (String × MaskPng)
  source : AutoMaskSource
deriving DecidableEq, Repr

/-- `downscaleForPreview`: unreadable dimensions throw; otherwise
`scale = min(1, maxSide / max(ow, oh))`, dimensions rounded and floored at 1. -/
def downscaleForPreview (ow oh maxSide : ℕ) : Except String (ℕ × ℕ) :=
  if ow = 0 ∨ oh = 0 then .error "Could not read image dimensions for masking"
  else
    let scale : ℚ := min 1 ((maxSide : ℚ) / ((max ow oh : ℕ) : ℚ))
    .ok ((max 1 (ImagePrep.jsRound ((ow : ℚ) * scale))).toNat,
         (max 1 (ImagePrep.jsRound ((oh : ℚ) * scale))).toNat)

/-- `rasterizePolygonMasks`: the default, collaborator-free path. -/
def rasterizePolygonMasks (sg : SceneGraph) (ow oh maxSide : ℕ) : Except String AutoMasks :=
  match downscaleForPreview ow oh maxSide with
  | .error e => .error e
  | .ok (w, h) =>
      .ok { maxSide := maxSide
            width := w
            height := h
            byType := (groupPolygonsByType sg).filterMap
              (fun kv => if kv.2 ≠ [] then some (kv.1, MaskPng.fromPolygons w h kv.2) else none)
            source := .polygonRaster }

/-- The environment variables `lib/masking.ts` reads. -/
structure Env where
  maskServiceUrl : Option String
  maskServiceTimeoutMs : Option ℕ
  maskAutoOnScan : Bool
  maskPreviewMaxSide : Option ℕ
deriving DecidableEq, Repr

/-- `Number(process.env.MASK_SERVICE_TIMEOUT_MS || 12000)`. -/
def timeoutMsOf (env : Env) : ℕ := env.maskServiceTimeoutMs.getD 12000

/-- The network request `callMaskService` issues: its URL, the abort timeout
scheduled for it (`setTimeout(() => ac.abort(), timeoutMs)`), and the
per-type polygon items of the payload. -/
structure SvcRequest where
  url : String
  timeoutMs : ℕ
  maxSide : ℕ
  items : List (String × List (List (ℚ × ℚ)))
deriving DecidableEq, Repr

/-- The request `callMaskService` sends, when it sends one: none when no
service URL is configured, when there are no polygon types to refine, or when
the preview downscale fails. -/
def svcRequestOf (env : Env) (sg : SceneGraph) (ow oh maxSide : ℕ) : Option SvcRequest :=
  match env.maskServiceUrl with
  | none => none
  | some url =>
      let grouped := groupPolygonsByType sg
      if grouped = [] then none
      else
        match downscaleForPreview ow oh maxSide with
        | .error _ => none
        | .ok _ => some { url := url
                          timeoutMs := timeoutMsOf env
                          maxSide := maxSide
                          items := grouped }

/-- The collaborator's behavior for one call, chosen by the environment. -/
inductive SvcOutcome
  | ok (width height : ℕ) (masks : List (String × String))
  | httpError (msg : String)
  | timeout
deriving DecidableEq, Repr

/-- `callMaskService`: errors (no URL, downscale failure, HTTP error, abort on
timeout) are thrown, i.e. returned as `.error`. -/
def callMaskService (env : Env) (svc : SvcOutcome) (sg : SceneGraph) (ow oh maxSide : ℕ) :
    Except String AutoMasks :=
  match env.maskServiceUrl with
  | none => .error "MASK_SERVICE_URL not set"
  | some _ =>
      let grouped := groupPolygonsByType sg
      if grouped = [] then
        .ok { maxSide := maxSide, width := 1, height := 1, byType := [], source := .maskService }
      else
        match downscaleForPreview ow oh maxSide with
        | .error e => .error e
        | .ok (w, h) =>
            match svc with
            | .timeout => .error "This operation was aborted"
            | .httpError msg => .error msg
            | .ok rw rh masks =>
                .ok { maxSide := maxSide
                      width := if rw = 0 then w else rw
                      height := if rh = 0 then h else rh
                      byType := masks.map (fun kv => (kv.1, MaskPng.fromService kv.2))
                      source := .maskService }

/-- `sceneGraph` filtered to the requested types (`refineMasksOnDemand`). -/
def filterTypes (sg : SceneGraph) (types : List String) : SceneGraph :=
  { elements := sg.elements.filter (fun e => e.type ∈ types) }

/-- `refineMasksOnDemand`: polygon fallback only when no service is
configured; otherwise the service result — including any error — is returned
as-is. -/
def refineMasksOnDemand (env : Env) (svc : SvcOutcome) (sg : SceneGraph)
    (types : List String) (ow oh maxSide : ℕ) : Except String AutoMasks :=
  match env.maskServiceUrl with
  | none => rasterizePolygonMasks sg ow oh maxSide
  | some _ => callMaskService env svc (filterTypes sg types) ow oh maxSide

/-- `generateAutoMasks` (scan-time path): the service is only consulted when
`MASK_AUTO_ON_SCAN === "1"` and a URL is set, and any service failure falls
through to polygon rasterization. -/
def generateAutoMasks (env : Env) (svc : SvcOutcome) (sg : SceneGraph) (ow oh maxSide : ℕ) :
    Except String AutoMasks :=
  if env.maskAutoOnScan ∧ env.maskServiceUrl.isSome then
    match callMaskService env svc sg ow oh maxSide with
    | .ok r => .ok r
    | .error _ => rasterizePolygonMasks sg ow oh maxSide
  else rasterizePolygonMasks sg ow oh maxSide

/-- An environment with the mask service configured and no explicit timeout. -/
def envSvc : Env :=
  { maskServiceUrl := some "http://mask-service:8000"
    maskServiceTimeoutMs := none
    maskAutoOnScan := false
    maskPreviewMaxSide := none }

/-- An environment with no mask service configured. -/
def envNone : Env :=
  { maskServiceUrl := none
    maskServiceTimeoutMs := none
    maskAutoOnScan := false
    maskPreviewMaxSide := none }

/-- A scene with a single triangular floor polygon. -/
def sceneFloor : SceneGraph :=
  { elements := [{ type := "floor", pointsNorm := [(0, 0), (1, 0), (1, 1)] }] }

/-- C7 counterexample: with a service URL configured and the collaborator
timing out, the on-demand path `refineMasksOnDemand` propagates the abort
error to its caller instead of silently returning the polygon-rasterized
masks (which the default path would happily produce for the same input). -/
theorem refineMasksOnDemand_propagates_error :
    refineMasksOnDemand envSvc .timeout sceneFloor ["floor"] 100 100 1200 =
      .error "This operation was aborted" ∧
    rasterizePolygonMasks sceneFloor 100 100 1200 =
      .ok { maxSide := 1200
            width := 100
            height := 100
            byType := [("floor", .fromPolygons 100 100 [[(0, 0), (1, 0), (1, 1)]])]
            source := .polygonRaster } := by
  constructor
  · rfl
  · simp [rasterizePolygonMasks, downscaleForPreview, groupPolygonsByType, insertPoly,
      clamp01, sceneFloor, ImagePrep.jsRound]
    norm_num [Int.floor_eq_iff]
    decide

/-- C7 (amended): every mask-service request is issued with the bounded abort
timeout `MASK_SERVICE_TIMEOUT_MS || 12000`; the scan-time path
(`generateAutoMasks`) falls back silently to polygon rasterization whenever
the service call fails; the on-demand path (`refineMasksOnDemand`) falls back
only when no service URL is configured and otherwise returns the service
call's result as-is, propagating its errors and timeouts to the caller. -/
theorem mask_service_timeout_and_fallback_policy :
    (∀ (env : Env) (sg : SceneGraph) (ow oh maxSide : ℕ) (req : SvcRequest),
        svcRequestOf env sg ow oh maxSide = some req →
        req.timeoutMs = env.maskServiceTimeoutMs.getD 12000) ∧
    (∀ (env : Env) (svc : SvcOutcome) (sg : SceneGraph) (ow oh maxSide : ℕ) (e : String),
        callMaskService env svc sg ow oh maxSide = .error e →
        generateAutoMasks env svc sg ow oh maxSide = rasterizePolygonMasks sg ow oh maxSide) ∧
    (∀ (env : Env) (svc : SvcOutcome) (sg : SceneGraph) (types : List String) (ow oh maxSide : ℕ),
        env.maskServiceUrl = none →
        refineMasksOnDemand env svc sg types ow oh maxSide =
          rasterizePolygonMasks sg ow oh maxSide) ∧
    (∀ (env : Env) (svc : SvcOutcome) (sg : SceneGraph) (types : List String)
        (ow oh maxSide : ℕ) (u : String),
        env.maskServiceUrl = some u →
        refineMasksOnDemand env svc sg types ow oh maxSide =
          callMaskService env svc (filterTypes sg types) ow oh maxSide) := by
  refine ⟨?_, ?_, ?_, ?_⟩
  · intro env sg ow oh maxSide req h
    cases hu : env.maskServiceUrl with
    | none => simp [svcRequestOf, hu] at h
    | some url =>
        by_cases hg : groupPolygonsByType sg = []
        · simp [svcRequestOf, hu, hg] at h
        · cases hd : downscaleForPreview ow oh maxSide with
          | error e => simp [svcRequestOf, hu, hg, hd] at h
          | ok pr =>
              simp [svcRequestOf, hu, hg, hd] at h
              subst h
              simp [timeoutMsOf]
  · intro env svc sg ow oh maxSide e h
    unfold generateAutoMasks
    split_ifs with hc
    · simp [h]
    · rfl
  · intro env svc sg types ow oh maxSide hu
    unfold refineMasksOnDemand
    rw [hu]
  · intro env svc sg types ow oh maxSide u hu
    unfold refineMasksOnDemand
    rw [hu]

/-- The request `callMaskService` issues for `sceneFloor` under `envSvc`. -/
def reqFloor : SvcRequest :=
  { url := "http://mask-service:8000"
    timeoutMs := 12000
    maxSide := 1200
    items := [("floor", [[(0, 0), (1, 0), (1, 1)]])] }

/-- Witness for `mask_service_timeout_and_fallback_policy` at concrete
inputs. -/
theorem mask_service_policy_witness :
    reqFloor.timeoutMs = envSvc.maskServiceTimeoutMs.getD 12000 ∧
    refineMasksOnDemand envNone .timeout sceneFloor ["floor"] 100 100 1200 =
      rasterizePolygonMasks sceneFloor 100 100 1200 :=
  ⟨mask_service_timeout_and_fallback_policy.1 envSvc sceneFloor 100 100 1200 reqFloor (by rfl),
   mask_service_timeout_and_fallback_policy.2.2.1 envNone .timeout sceneFloor ["floor"]
     100 100 1200 rfl⟩

end Masking

namespace Refine

/-- A refinement request in flight: the id of its `AbortController`, the
cache key it was issued for, and whether its controller has been aborted. -/
structure Req where
  id : ℕ
  key : ℕ
  aborted : Bool
deriving DecidableEq, Repr

/-- The scheduler state of the build page: `pending` is the debounce timer's
key (if armed), `reqs` every request issued so far, `cur` the id held by
`refineAbort.current`, `cache` the keys present in `refineCache`,
`displayed` the key whose image `refinedBaseSrc` shows, and `lastKey` is
`lastRefinedKey`. Keys stand for `currentRefineKey` strings; a key's
response image is determined by the key. -/
structure St where
  pending : Option ℕ
  reqs : List Req
  nextId : ℕ
  cur : Option ℕ
  cache : List ℕ
  displayed : Option ℕ
  lastKey : Option ℕ
deriving DecidableEq, Repr

/-- Events of the single-threaded event loop: a selection change re-runs the
effect (cleanup clears the armed timer, then the body runs); `fire` is the
850 ms debounce timer elapsing; `arrive i` is request `i`'s response
continuation running. -/
inductive Ev
  | select (k : ℕ)
  | fire
  | arrive (i : ℕ)
deriving DecidableEq, Repr

def Ev.isSelect : Ev → Bool
  | .select _ => true
  | _ => false

def Ev.isFire : Ev → Bool
  | .fire => true
  | _ => false

/-- `refineAbort.current.abort()`: mark request `i`'s controller aborted. -/
def markAborted (i : ℕ) (rs : List Req) : List Req :=
  rs.map (fun r => if r.id = i then { r with aborted := true } else r)

/-- One step of the scheduler.
* `select k`: the effect cleanup clears any armed timer; the body adopts a
  cached image immediately (no timer) or arms the debounce timer for `k`.
* `fire`: if a timer is armed for `k`, abort the in-flight controller
  (`refineAbort.current`) and issue one request for `k`, which becomes
  current.
* `arrive i`: the fetch continuation of request `i`; an aborted controller
  rejects its promise (`AbortError` is caught and returns), so only a
  non-aborted request writes the cache and adopts its image. -/
def step (s : St) : Ev → St
  | .select k =>
      if k ∈ s.cache then
        { s with pending := none, displayed := some k, lastKey := some k }
      else
        { s with pending := some k }
  | .fire =>
      match s.pending with
      | none => s
      | some k =>
          let rs := match s.cur with
                    | some i => markAborted i s.reqs
                    | none => s.reqs
          { s with pending := none
                   reqs := rs ++ [{ id := s.nextId, key := k, aborted := false }]
                   nextId := s.nextId + 1
                   cur := some s.nextId }
  | .arrive i =>
      match s.reqs.find? (fun r => r.id = i) with
      | none => s
      | some r =>
          if r.aborted then s
          else { s with cache := r.key :: s.cache
                        displayed := some r.key
                        lastKey := some r.key }

/-- Run a sequence of events. -/
def run (s : St) (evs : List Ev) : St := evs.foldl step s

/-- The initial state of the page. -/
def st0 : St :=
  { pending := none, reqs := [], nextId := 0, cur := none, cache := [],
    displayed := none, lastKey := none }

lemma run_nil (s : St) : run s [] = s := rfl

lemma run_cons (s : St) (e : Ev) (evs : List Ev) : run s (e :: evs) = run (step s e) evs := rfl

lemma run_append (s : St) (l1 l2 : List Ev) : run s (l1 ++ l2) = run (run s l1) l2 := by
  simp [run, List.foldl_append]

lemma step_select (s : St) (k : ℕ) :
    (step s (.select k)).reqs = s.reqs ∧ (step s (.select k)).cur = s.cur ∧
    ((step s (.select k)).pending = some k ∨ (step s (.select k)).pending = none) := by
  simp only [step]
  split_ifs
  · exact ⟨rfl, rfl, Or.inr rfl⟩
  · exact ⟨rfl, rfl, Or.inl rfl⟩

lemma step_arrive_frame (s : St) (i : ℕ) :
    (step s (.arrive i)).reqs = s.reqs ∧ (step s (.arrive i)).pending = s.pending ∧
    (step s (.arrive i)).cur = s.cur := by
  simp only [step]
  cases hf : s.reqs.find? (fun r => r.id = i) with
  | none => exact ⟨rfl, rfl, rfl⟩
  | some r =>
      dsimp only
      split_ifs
      · exact ⟨rfl, rfl, rfl⟩
      · exact ⟨rfl, rfl, rfl⟩

lemma markAborted_keys (i : ℕ) (rs : List Req) :
    (markAborted i rs).map Req.key = rs.map Req.key := by
  unfold markAborted
  rw [List.map_map]
  refine List.map_congr_left ?_
  intro r _
  simp only [Function.comp]
  split_ifs <;> rfl

/-- Events that are neither selection changes nor timer firings (in-flight
responses landing) change neither the request list nor the armed timer. -/
lemma arriveOnly_run (m : List Ev) :
    (∀ e ∈ m, e.isSelect = false ∧ e.isFire = false) →
    ∀ s : St, (run s m).reqs = s.reqs ∧ (run s m).pending = s.pending := by
  induction m with
  | nil => exact fun _ s => ⟨rfl, rfl⟩
  | cons e rest ih =>
      intro h s
      have he := h e (List.mem_cons_self e rest)
      have hr : ∀ e' ∈ rest, e'.isSelect = false ∧ e'.isFire = false :=
        fun e' h' => h e' (List.mem_cons_of_mem e h')
      cases e with
      | select k => simp [Ev.isSelect] at he
      | fire => simp [Ev.isFire] at he
      | arrive i =>
          rw [run_cons]
          have hs := step_arrive_frame s i
          have hrest := ih hr (step s (.arrive i))
          exact ⟨hrest.1.trans hs.1, hrest.2.trans hs.2.1⟩

/-- With no further selection changes, the scheduler issues at most one more
request, and only for the key the timer is armed with. -/
lemma noSelect_run (m : List Ev) :
    (∀ e ∈ m, e.isSelect = false) →
    ∀ s : St,
      (run s m).reqs.map Req.key = s.reqs.map Req.key ∨
      (∃ k, s.pending = some k ∧
        (run s m).reqs.map Req.key = s.reqs.map Req.key ++ [k]) := by
  induction m with
  | nil => exact fun _ s => Or.inl rfl
  | cons e rest ih =>
      intro h s
      have he := h e (List.mem_cons_self e rest)
      have hr : ∀ e' ∈ rest, e'.isSelect = false :=
        fun e' h' => h e' (List.mem_cons_of_mem e h')
      cases e with
      | select k => simp [Ev.isSelect] at he
      | fire =>
          rw [run_cons]
          cases hp : s.pending with
          | none =>
              have hstep : step s .fire = s := by simp [step, hp]
              rw [hstep]
              rcases ih hr s with h3 | ⟨k, hk, h3⟩
              · exact Or.inl h3
              · rw [hp] at hk
                exact absurd hk (by simp)
          | some k =>
              have h1 : (step s .fire).reqs.map Req.key = s.reqs.map Req.key ++ [k] := by
                cases hc : s.cur <;> simp [step, hp, hc, markAborted_keys]
              have h2 : (step s .fire).pending = none := by simp [step, hp]
              rcases ih hr (step s .fire) with h3 | ⟨k', hk', _⟩
              · exact Or.inr ⟨k, rfl, by rw [h3, h1]⟩
              · rw [h2] at hk'
                exact absurd hk' (by simp)
      | arrive i =>
          rw [run_cons]
          have hs := step_arrive_frame s i
          rcases ih hr (step s (.arrive i)) with h3 | ⟨k, hk, h3⟩
          · exact Or.inl (by rw [h3, hs.1])
          · rw [hs.2.1] at hk
            rw [hs.1] at h3
            exact Or.inr ⟨k, hk, h3⟩

/-- The cancellation invariant: every request other than the one
`refineAbort.current` points at has an aborted controller. -/
def Inv (s : St) : Prop := ∀ r ∈ s.reqs, r.aborted = false → s.cur = some r.id

lemma Inv_step (s : St) (e : Ev) (h : Inv s) : Inv (step s e) := by
  cases e with
  | select k =>
      intro r hr ha
      have hs := step_select s k
      rw [hs.1] at hr
      rw [hs.2.1]
      exact h r hr ha
  | fire =>
      cases hp : s.pending with
      | none =>
          have hstep : step s .fire = s := by simp [step, hp]
          rw [hstep]
          exact h
      | some k =>
          intro r hr ha
          simp only [step, hp] at hr ⊢
          rcases List.mem_append.mp hr with hold | hnew
          · cases hc : s.cur with
            | none =>
                rw [hc] at hold
                simp only at hold
                have := h r hold ha
                rw [hc] at this
                exact absurd this (by simp)
            | some i =>
                rw [hc] at hold
                simp only at hold
                obtain ⟨r0, hr0, heq⟩ := List.mem_map.mp hold
                by_cases hid : r0.id = i
                · rw [if_pos hid] at heq
                  rw [← heq] at ha
                  simp at ha
                · rw [if_neg hid] at heq
                  subst heq
                  have := h r0 hr0 ha
                  rw [hc] at this
                  exact absurd (Option.some.inj this).symm hid
          · simp only [List.mem_singleton] at hnew
            subst hnew
            rfl
  | arrive i =>
      intro r hr ha
      have hs := step_arrive_frame s i
      rw [hs.1] at hr
      rw [hs.2.2]
      exact h r hr ha

lemma Inv_run (evs : List Ev) : Inv (run st0 evs) := by
  have key : ∀ (l : List Ev) (s : St), Inv s → Inv (run s l) := by
    intro l
    induction l with
    | nil => exact fun s hs => hs
    | cons e rest ih =>
        intro s hs
        rw [run_cons]
        exact ih _ (Inv_step s e hs)
  exact key evs st0 (fun r hr _ => absurd hr (List.not_mem_nil r))

/-- C3: (a) three selection changes A, B, C inside one debounce window
(no timer firing in between; responses may still land) followed by any
select-free continuation cause at most one new network request, and it is
for C's key; (b) the response of a request whose cancellation token was
aborted changes nothing at all — it writes neither the cache nor the
displayed preview state; (c) in every reachable state all requests except
the current one are aborted, so once the current key's request is issued
(and in particular once its response has landed) a late response for any
earlier key is discarded by (b). -/
theorem debounce_and_cancellation :
    (∀ (s : St) (a b c : ℕ) (m1 m2 post : List Ev),
        (∀ e ∈ m1, e.isSelect = false ∧ e.isFire = false) →
        (∀ e ∈ m2, e.isSelect = false ∧ e.isFire = false) →
        (∀ e ∈ post, e.isSelect = false) →
        (run s ([Ev.select a] ++ m1 ++ [Ev.select b] ++ m2 ++ [Ev.select c] ++ post)).reqs.map
            Req.key = s.reqs.map Req.key ∨
        (run s ([Ev.select a] ++ m1 ++ [Ev.select b] ++ m2 ++ [Ev.select c] ++ post)).reqs.map
            Req.key = s.reqs.map Req.key ++ [c]) ∧
    (∀ (s : St) (i : ℕ) (r : Req),
        s.reqs.find? (fun r => r.id = i) = some r → r.aborted = true →
        step s (.arrive i) = s) ∧
    (∀ (evs : List Ev) (r : Req),
        r ∈ (run st0 evs).reqs → r.aborted = false → (run st0 evs).cur = some r.id) := by
  refine ⟨?_, ?_, ?_⟩
  · intro s a b c m1 m2 post h1 h2 h3
    rw [run_append, run_append, run_append, run_append, run_append]
    set s1 := run s [Ev.select a] with hs1
    set s2 := run s1 m1 with hs2
    set s3 := run s2 [Ev.select b] with hs3
    set s4 := run s3 m2 with hs4
    set s5 := run s4 [Ev.select c] with hs5
    have e1 : s1.reqs = s.reqs := (step_select s a).1
    have e2 : s2.reqs = s1.reqs := (arriveOnly_run m1 h1 s1).1
    have e3 : s3.reqs = s2.reqs := (step_select s2 b).1
    have e4 : s4.reqs = s3.reqs := (arriveOnly_run m2 h2 s3).1
    have e5 : s5.reqs = s4.reqs := (step_select s4 c).1
    have ereqs : s5.reqs = s.reqs := by rw [e5, e4, e3, e2, e1]
    have epend : s5.pending = some c ∨ s5.pending = none := (step_select s4 c).2.2
    rcases noSelect_run post h3 s5 with hout | ⟨k, hk, hout⟩
    · exact Or.inl (by rw [hout, ereqs])
    · rcases epend with hp | hp
      · rw [hp] at hk
        obtain rfl : c = k := Option.some.inj hk
        exact Or.inr (by rw [hout, ereqs])
      · rw [hp] at hk
        exact absurd hk (by simp)
  · intro s i r hf ha
    simp [step, hf, ha]
  · intro evs r hr ha
    exact Inv_run evs r hr ha

/-- Witness for `debounce_and_cancellation` at concrete inputs: the trace
"select 1, select 2, select 3, timer fires" from the initial state; an
aborted request's late response; and the two-event trace "select 5, fire"
whose single request is current. -/
theorem debounce_and_cancellation_witness :
    ((run st0 ([Ev.select 1] ++ [] ++ [Ev.select 2] ++ [] ++ [Ev.select 3] ++
        [Ev.fire])).reqs.map Req.key = st0.reqs.map Req.key ∨
     (run st0 ([Ev.select 1] ++ [] ++ [Ev.select 2] ++ [] ++ [Ev.select 3] ++
        [Ev.fire])).reqs.map Req.key = st0.reqs.map Req.key ++ [3]) ∧
    step { pending := none, reqs := [{ id := 0, key := 7, aborted := true }], nextId := 1,
           cur := some 0, cache := [], displayed := none, lastKey := none } (.arrive 0) =
      { pending := none, reqs := [{ id := 0, key := 7, aborted := true }], nextId := 1,
        cur := some 0, cache := [], displayed := none, lastKey := none } ∧
    (run st0 [Ev.select 5, Ev.fire]).cur = some 0 :=
  ⟨debounce_and_cancellation.1 st0 1 2 3 [] [] [Ev.fire]
      (by simp) (by simp) (by simp [Ev.isSelect]),
   debounce_and_cancellation.2.1 _ 0 { id := 0, key := 7, aborted := true } rfl rfl,
   debounce_and_cancellation.2.2 [Ev.select 5, Ev.fire] { id := 0, key := 5, aborted := false }
      (by simp [run, step, st0]) rfl⟩

end Refine

namespace Store

/-- Job lifecycle status. -/
inductive JobStatus
  | queued
  | processing
  | completed
  | failed
deriving DecidableEq, Repr

/-- A stored `BuilderJob` record (payload abstracted to its status and an
opaque body). -/
structure BuilderJob where
  id : String
  status : JobStatus
  body : String
deriving DecidableEq, Repr

/-- The TTL key-value store: each `SET key value EX ttl` leaves a record with
an absolute expiry instant. Redis `GET` returns nothing once the expiry has
passed, exactly as if the key had never been set. -/
structure StoreState where
  entries : List (String × BuilderJob × ℕ)
deriving DecidableEq, Repr

/-- `getJob(id)` observed at instant `now`: `GET` yields the serialized job
only while the record exists and is unexpired; otherwise `null`, and the
function returns `null`. -/
def getJob (st : StoreState) (id : String) (now : ℕ) : Option BuilderJob :=
  match st.entries.lookup id with
  | some (job, expiry) => if now < expiry then some job else none
  | none => none

/-- `setJob(job, ttlSeconds)` at instant `now`. -/
def setJob (st : StoreState) (job : BuilderJob) (ttlSeconds now : ℕ) : StoreState :=
  { entries := (job.id, job, now + ttlSeconds) :: st.entries }

/-- Responses of the job-status `GET` route. -/
inductive RouteResp
  | forbidden
  | rateLimited
  | notFound
  | ok (job : BuilderJob)
deriving DecidableEq, Repr

/-- The job-status `GET` route: origin check, rate limit, then
`getJob(id)`; a missing record is a 404 "Not found", a present one is
returned verbatim. -/
def jobStatusGET (originOk rateOk : Bool) (st : StoreState) (id : String) (now : ℕ) :
    RouteResp :=
  if !originOk then .forbidden
  else if !rateOk then .rateLimited
  else
    match getJob st id now with
    | none => .notFound
    | some job => .ok job

/-- C9: polling an id with no live record yields "not found" (never a job in
status `failed`); an expired record behaves identically to one that never
existed; and any job the route does return was genuinely read from the
store. -/
lemma lookup_filter_ne {α β : Type} [BEq α] [LawfulBEq α] [DecidableEq α]
    (a : α) (l : List (α × β)) :
    (l.filter (fun kv => kv.1 ≠ a)).lookup a = none := by
  induction l with
  | nil => rfl
  | cons hd tl ih =>
      by_cases h : hd.1 = a
      · simpa [List.filter_cons, h] using ih
      · have hb : (a == hd.1) = false := beq_eq_false_iff_ne.mpr (fun e => h e.symm)
        simp only [List.filter_cons, decide_eq_true_eq]
        rw [if_pos (by simpa using h)]
        simp only [List.lookup, hb]
        simpa using ih

theorem jobStatus_unknown_is_notFound :
    (∀ (st : StoreState) (id : String) (now : ℕ),
        getJob st id now = none →
        jobStatusGET true true st id now = .notFound) ∧
    (∀ (st : StoreState) (job : BuilderJob) (ttl now obsAt : ℕ),
        now + ttl ≤ obsAt →
        getJob (setJob st job ttl now) job.id obsAt =
          getJob { entries := st.entries.filter (fun kv => kv.1 ≠ job.id) } job.id obsAt) ∧
    (∀ (st : StoreState) (id : String) (now : ℕ) (job : BuilderJob),
        jobStatusGET true true st id now = .ok job →
        getJob st id now = some job) := by
  refine ⟨?_, ?_, ?_⟩
  · intro st id now h
    simp [jobStatusGET, h]
  · intro st job ttl now obsAt hexp
    have h1 : getJob (setJob st job ttl now) job.id obsAt = none := by
      simp only [getJob, setJob, List.lookup, beq_self_eq_true]
      rw [if_neg (by omega : ¬obsAt < now + ttl)]
    have h2 : getJob { entries := st.entries.filter (fun kv => kv.1 ≠ job.id) } job.id obsAt =
        none := by
      simp only [getJob, lookup_filter_ne]
    rw [h1, h2]
  · intro st id now job h
    unfold jobStatusGET at h
    cases hg : getJob st id now with
    | none => simp [hg] at h
    | some j =>
        simp [hg] at h
        rw [h]

/-- A concrete finished job record. -/
def jobX : BuilderJob := { id := "job-1", status := .completed, body := "result" }

/-- Witness for `jobStatus_unknown_is_notFound`: polling an empty store 404s,
and a record stored with TTL 60 at instant 0, observed at instant 60, reads
back exactly like a never-stored record. -/
theorem jobStatus_unknown_is_notFound_witness :
    jobStatusGET true true { entries := [] } "job-1" 5 = .notFound ∧
    getJob (setJob { entries := [] } jobX 60 0) jobX.id 60 =
      getJob { entries := List.filter (fun kv => kv.1 ≠ jobX.id) [] } jobX.id 60 :=
  ⟨jobStatus_unknown_is_notFound.1 { entries := [] } "job-1" 5 rfl,
   jobStatus_unknown_is_notFound.2.1 { entries := [] } jobX 60 0 60 (by omega)⟩

end Store

namespace CacheKey

/-- The JSON values `stableStringify` canonicalizes. Objects carry their
fields in insertion order, as JavaScript objects do. -/
inductive Json
  | null
  | bool (b : Bool)
  | num (n : ℤ)
  | str (s : String)
  | arr (elems : List Json)
  | obj (fields : List (String × Json))
deriving Repr

/-- Sorted insertion of one field by key (lexicographic string order, as
JavaScript's default `Array.prototype.sort` compares string keys). -/
def insertPair (p : String × Json) : List (String × Json) → List (String × Json)
  | [] => [p]
  | q :: rest => if p.1 ≤ q.1 then p :: q :: rest else q :: insertPair p rest

/-- `Object.keys(v).sort()`-ordering of an object's fields. On duplicate-free
keys (all JavaScript objects) any comparison sort yields this unique order. -/
def sortPairs : List (String × Json) → List (String × Json)
  | [] => []
  | p :: rest => insertPair p (sortPairs rest)

mutual

/-- The canonicalization performed by `stableStringify`'s replacer: objects
get their keys recursively sorted, array order is preserved. -/
def sortKeys : Json → Json
  | .null => .null
  | .bool b => .bool b
  | .num n => .num n
  | .str s => .str s
  | .arr xs => .arr (sortKeysList xs)
  | .obj kvs => .obj (sortPairs (sortKeysPairs kvs))

def sortKeysList : List Json → List Json
  | [] => []
  | x :: xs => sortKeys x :: sortKeysList xs

def sortKeysPairs : List (String × Json) → List (String × Json)
  | [] => []
  | (k, v) :: rest => (k, sortKeys v) :: sortKeysPairs rest

end

mutual

/-- JSON text of a value (`JSON.stringify` with sorted-keys replacer already
applied; string escaping is omitted — the request keys and values this app
hashes are plain identifier-like strings). -/
def encode : Json → String
  | .null => "null"
  | .bool b => if b then "true" else "false"
  | .num n => toString n
  | .str s => "\"" ++ s ++ "\""
  | .arr xs => "[" ++ encodeList xs ++ "]"
  | .obj kvs => "\x7b" ++ encodePairs kvs ++ "\x7d"

def encodeList : List Json → String
  | [] => ""
  | [x] => encode x
  | x :: y :: xs => encode x ++ "," ++ encodeList (y :: xs)

def encodePairs : List (String × Json) → String
  | [] => ""
  | [(k, v)] => "\"" ++ k ++ "\":" ++ encode v
  | (k, v) :: q :: rest => "\"" ++ k ++ "\":" ++ encode v ++ "," ++ encodePairs (q :: rest)

end

/-- `stableStringify`: stringify with recursively sorted object keys. -/
def stableStringify (j : Json) : String := encode (sortKeys j)

/-- One step of the FNV-1a loop: `h ^= charCode; h = Math.imul(h, 16777619)`,
viewed as unsigned 32-bit arithmetic. -/
def hashStep (h : ℕ) (c : Char) : ℕ := ((h ^^^ c.toNat) * 16777619) % 2 ^ 32

/-- `hashString`: 32-bit FNV-1a over the string's code units, starting from
the offset basis 2166136261; the result is the `h >>> 0` unsigned value. -/
def hashString (s : String) : ℕ := s.data.foldl hashStep 2166136261

/-- `(h >>> 0).toString(16)`. -/
def hashHex (n : ℕ) : String := (Nat.toDigits 16 n).asString

/-- The refinement cache key `` `${scanId}:${hashString(seed)}:${variant}` ``. -/
def cacheKeyOf (scanId variant : String) (j : Json) : String :=
  scanId ++ ":" ++ hashHex (hashString (stableStringify j)) ++ ":" ++ variant

mutual

/-- "Same key/value pairs, possibly different insertion order": values are
related recursively, arrays pointwise in order, and an object's field list is
a permutation (witnessed through an intermediate list `l3` in the original
key order with the right-hand values) of duplicate-free-keyed fields. -/
inductive KeyPermEquiv : Json → Json → Prop
  | null : KeyPermEquiv .null .null
  | bool (b : Bool) : KeyPermEquiv (.bool b) (.bool b)
  | num (n : ℤ) : KeyPermEquiv (.num n) (.num n)
  | str (s : String) : KeyPermEquiv (.str s) (.str s)
  | arr {xs ys : List Json} : ArrEquiv xs ys → KeyPermEquiv (.arr xs) (.arr ys)
  | obj {l1 l2 l3 : List (String × Json)} :
      ObjEquiv l1 l3 → l3.Perm l2 → (l1.map Prod.fst).Nodup →
      KeyPermEquiv (.obj l1) (.obj l2)

inductive ArrEquiv : List Json → List Json → Prop
  | nil : ArrEquiv [] []
  | cons {x y : Json} {xs ys : List Json} :
      KeyPermEquiv x y → ArrEquiv xs ys → ArrEquiv (x :: xs) (y :: ys)

inductive ObjEquiv : List (String × Json) → List (String × Json) → Prop
  | nil : ObjEquiv [] []
  | cons (k : String) {v w : Json} {l l' : List (String × Json)} :
      KeyPermEquiv v w → ObjEquiv l l' → ObjEquiv ((k, v) :: l) ((k, w) :: l')

end

lemma sortKeysPairs_eq_map (l : List (String × Json)) :
    sortKeysPairs l = l.map (fun kv => (kv.1, sortKeys kv.2)) := by
  induction l with
  | nil => rfl
  | cons kv rest ih =>
      cases kv
      rw [sortKeysPairs, List.map_cons, ih]

lemma insertPair_perm (p : String × Json) (l : List (String × Json)) :
    (insertPair p l).Perm (p :: l) := by
  induction l with
  | nil => exact List.Perm.refl _
  | cons q rest ih =>
      rw [insertPair]
      split_ifs with h
      · exact List.Perm.refl _
      · exact (ih.cons q).trans (List.Perm.swap p q rest)

lemma mem_insertPair {x p : String × Json} {l : List (String × Json)}
    (hx : x ∈ insertPair p l) : x = p ∨ x ∈ l := by
  have := (insertPair_perm p l).mem_iff.mp hx
  simpa using this

lemma insertPair_sorted (p : String × Json) {l : List (String × Json)}
    (h : l.Pairwise (fun a b => a.1 ≤ b.1)) :
    (insertPair p l).Pairwise (fun a b => a.1 ≤ b.1) := by
  induction l with
  | nil => simp [insertPair]
  | cons q rest ih =>
      rcases List.pairwise_cons.mp h with ⟨hq, hrest⟩
      rw [insertPair]
      split_ifs with hle
      · refine List.pairwise_cons.mpr ⟨?_, h⟩
        intro b hb
        rcases List.mem_cons.mp hb with rfl | hb
        · exact hle
        · exact le_trans hle (hq b hb)
      · refine List.pairwise_cons.mpr ⟨?_, ih hrest⟩
        intro b hb
        rcases mem_insertPair hb with rfl | hb
        · exact le_of_not_le hle
        · exact hq b hb

lemma sortPairs_perm (l : List (String × Json)) : (sortPairs l).Perm l := by
  induction l with
  | nil => exact List.Perm.refl _
  | cons p rest ih =>
      rw [sortPairs]
      exact (insertPair_perm p (sortPairs rest)).trans (ih.cons p)

lemma sortPairs_sorted (l : List (String × Json)) :
    (sortPairs l).Pairwise (fun a b => a.1 ≤ b.1) := by
  induction l with
  | nil => simp [sortPairs]
  | cons p rest ih => exact insertPair_sorted p ih

lemma sortPairs_pairwise_lt {l : List (String × Json)}
    (hn : (l.map Prod.fst).Nodup) :
    (sortPairs l).Pairwise (fun a b => a.1 < b.1) := by
  have hle := sortPairs_sorted l
  have hnod : ((sortPairs l).map Prod.fst).Nodup :=
    (((sortPairs_perm l).map Prod.fst).nodup_iff).mpr hn
  have hne : (sortPairs l).Pairwise (fun a b => a.1 ≠ b.1) := List.pairwise_map.mp hnod
  exact (hle.and hne).imp (fun hab => lt_of_le_of_ne hab.1 hab.2)

lemma sortPairs_eq_of_perm {X Y : List (String × Json)} (hp : X.Perm Y)
    (hn : (X.map Prod.fst).Nodup) : sortPairs X = sortPairs Y := by
  haveI : IsAntisymm (String × Json) (fun a b => a.1 < b.1) :=
    ⟨fun a b h1 h2 => absurd h2 (lt_asymm h1)⟩
  have hPXY : (sortPairs X).Perm (sortPairs Y) :=
    (sortPairs_perm X).trans (hp.trans (sortPairs_perm Y).symm)
  have hnY : (Y.map Prod.fst).Nodup := ((hp.map Prod.fst).nodup_iff).mp hn
  exact List.eq_of_perm_of_sorted hPXY (sortPairs_pairwise_lt hn) (sortPairs_pairwise_lt hnY)

mutual

theorem sortKeys_eq {j1 j2 : Json} (h : KeyPermEquiv j1 j2) : sortKeys j1 = sortKeys j2 :=
  match h with
  | .null => rfl
  | .bool _ => rfl
  | .num _ => rfl
  | .str _ => rfl
  | .arr ha => by rw [sortKeys, sortKeys, sortKeysList_eq ha]
  | @KeyPermEquiv.obj l1 l2 l3 ho hp hn => by
      rw [sortKeys, sortKeys]
      have h13 : sortKeysPairs l1 = sortKeysPairs l3 := sortKeysPairs_eq ho
      have hperm : (sortKeysPairs l1).Perm (sortKeysPairs l2) := by
        rw [h13, sortKeysPairs_eq_map, sortKeysPairs_eq_map]
        exact hp.map _
      have hnod : ((sortKeysPairs l1).map Prod.fst).Nodup := by
        rw [sortKeysPairs_eq_map, List.map_map]
        simpa [Function.comp] using hn
      rw [sortPairs_eq_of_perm hperm hnod]

theorem sortKeysList_eq {xs ys : List Json} (h : ArrEquiv xs ys) :
    sortKeysList xs = sortKeysList ys :=
  match h with
  | .nil => rfl
  | .cons hx hxs => by rw [sortKeysList, sortKeysList, sortKeys_eq hx, sortKeysList_eq hxs]

theorem sortKeysPairs_eq {l l' : List (String × Json)} (h : ObjEquiv l l') :
    sortKeysPairs l = sortKeysPairs l' :=
  match h with
  | .nil => rfl
  | .cons k hv hl => by
      rw [sortKeysPairs, sortKeysPairs, sortKeys_eq hv, sortKeysPairs_eq hl]

end

/-- C4: request objects holding identical key/value pairs (arrays in the same
order) with object keys in any insertion orders canonicalize to the same
string, hash to the same 32-bit value, and produce the same refinement cache
key. -/
theorem cache_key_insensitive_to_key_order {j1 j2 : Json} (h : KeyPermEquiv j1 j2) :
    stableStringify j1 = stableStringify j2 ∧
    hashString (stableStringify j1) = hashString (stableStringify j2) ∧
    ∀ scanId variant : String, cacheKeyOf scanId variant j1 = cacheKeyOf scanId variant j2 := by
  have hs : stableStringify j1 = stableStringify j2 := by
    unfold stableStringify
    rw [sortKeys_eq h]
  refine ⟨hs, by rw [hs], ?_⟩
  intro scanId variant
  unfold cacheKeyOf
  rw [hs]

/-- The refine request body with keys in submission order. -/
def reqJson1 : Json :=
  .obj [("scanId", .str "s1"),
        ("selections", .obj [("walls", .str "dark"), ("flooring", .str "light")]),
        ("extras", .obj [("lighting", .bool true)]),
        ("userPrompt", .str ""),
        ("variant", .str "low")]

/-- The same pairs with the outer `selections`/`scanId` and the inner
`selections` keys in a different insertion order. -/
def reqJson2 : Json :=
  .obj [("selections", .obj [("flooring", .str "light"), ("walls", .str "dark")]),
        ("scanId", .str "s1"),
        ("extras", .obj [("lighting", .bool true)]),
        ("userPrompt", .str ""),
        ("variant", .str "low")]

/-- `reqJson1` and `reqJson2` hold the same pairs up to key order. -/
theorem reqJson_equiv : KeyPermEquiv reqJson1 reqJson2 := by
  have hsel : KeyPermEquiv
      (Json.obj [("walls", Json.str "dark"), ("flooring", Json.str "light")])
      (Json.obj [("flooring", Json.str "light"), ("walls", Json.str "dark")]) := by
    refine @KeyPermEquiv.obj _ _
      [("walls", Json.str "dark"), ("flooring", Json.str "light")] ?_ ?_ ?_
    · exact ObjEquiv.cons "walls" (KeyPermEquiv.str "dark")
        (ObjEquiv.cons "flooring" (KeyPermEquiv.str "light") ObjEquiv.nil)
    · exact List.Perm.swap ("flooring", Json.str "light") ("walls", Json.str "dark") []
    · decide
  have hextras : KeyPermEquiv (Json.obj [("lighting", Json.bool true)])
      (Json.obj [("lighting", Json.bool true)]) := by
    refine @KeyPermEquiv.obj _ _ [("lighting", Json.bool true)] ?_ (List.Perm.refl _) ?_
    · exact ObjEquiv.cons "lighting" (KeyPermEquiv.bool true) ObjEquiv.nil
    · decide
  refine @KeyPermEquiv.obj _ _
    [("scanId", Json.str "s1"),
     ("selections", Json.obj [("flooring", Json.str "light"), ("walls", Json.str "dark")]),
     ("extras", Json.obj [("lighting", Json.bool true)]),
     ("userPrompt", Json.str ""),
     ("variant", Json.str "low")]
    ?_ ?_ ?_
  · exact ObjEquiv.cons "scanId" (KeyPermEquiv.str "s1")
      (ObjEquiv.cons "selections" hsel
        (ObjEquiv.cons "extras" hextras
          (ObjEquiv.cons "userPrompt" (KeyPermEquiv.str "")
            (ObjEquiv.cons "variant" (KeyPermEquiv.str "low") ObjEquiv.nil))))
  · exact List.Perm.swap
      ("selections", Json.obj [("flooring", Json.str "light"), ("walls", Json.str "dark")])
      ("scanId", Json.str "s1")
      [("extras", Json.obj [("lighting", Json.bool true)]),
       ("userPrompt", Json.str ""),
       ("variant", Json.str "low")]
  · decide

/-- Witness for `cache_key_insensitive_to_key_order` on the concrete pair. -/
theorem cache_key_insensitive_witness :
    stableStringify reqJson1 = stableStringify reqJson2 ∧
    hashString (stableStringify reqJson1) = hashString (stableStringify reqJson2) :=
  ⟨(cache_key_insensitive_to_key_order reqJson_equiv).1,
   (cache_key_insensitive_to_key_order reqJson_equiv).2.1⟩

end CacheKey

namespace MaskPrec

/-- A scene element as consumed by the build page and overlay baker. -/
structure SceneElement where
  id : String
  type : String
  pointsNorm : List (ℚ × ℚ)
deriving DecidableEq, Repr

/-- Scene graph slice. -/
structure SceneGraph where
  elements : List SceneElement
deriving DecidableEq, Repr

/-- A builder module's identity and surface targeting. -/
structure BuilderModule where
  featureId : String
  targetElementTypes : List String
deriving DecidableEq, Repr

/-- The clipping mask `buildMaskCanvas` draws for a module: either the
user's override raster scaled onto the working canvas, or the union-filled
polygon mask. -/
inductive BakeMask
  | fromOverrideImg (src : String)
  | fromPolygons (polys : List (List (ℚ × ℚ)))
deriving DecidableEq, Repr

/-- `buildMaskCanvas` (overlay-asset baking): "If the user has corrected this
surface mask, prefer it" — the override raster, looked up by `featureId`, is
used exclusively; only without one are the module's target polygons
rasterized (`null` when no elements match). Degenerate polygons (<3 points)
are skipped while drawing. -/
def buildMaskCanvas (maskOverrides : List (String × String)) (scene : SceneGraph)
    (m : BuilderModule) : Option BakeMask :=
  match maskOverrides.lookup m.featureId with
  | some ov => some (.fromOverrideImg ov)
  | none =>
      let elems := scene.elements.filter (fun e => e.type ∈ m.targetElementTypes)
      if elems = [] then none
      else some (.fromPolygons ((elems.map (·.pointsNorm)).filter (fun pts => 3 ≤ pts.length)))

/-- What the live compositor clips one element's overlay with
(`destination-in` phase of the per-frame draw). -/
inductive DrawMask
  | overrideImg (src : String)
  | featheredPoly (pts : List (ℚ × ℚ)) (featherPx : ℕ)
  | noMask
deriving DecidableEq, Repr

/-- The live compositor's per-element mask choice: an override looked up by
element id wins outright ("override PNG preferred, else feathered polygon");
otherwise a polygon with at least 3 points is feathered and used; else
nothing is clipped. -/
def drawElementMask (maskOverrides : List (String × String)) (feather : ℕ)
    (el : SceneElement) : DrawMask :=
  match maskOverrides.lookup el.id with
  | some ov => .overrideImg ov
  | none =>
      if 3 ≤ el.pointsNorm.length then .featheredPoly el.pointsNorm feather else .noMask

/-- The scan route's element ids: `makeSceneGraph` assigns `` `${t}_${i}` ``
to the `i`-th element of surface type `t`. -/
def elementIdOf (t : String) (i : ℕ) : String := t ++ "_" ++ toString i

/-- The mask editor's `onSave`: the corrected raster is stored in the
override map under the edited *element's id*
(`setMaskOverrides((p) => ({ ...p, [id]: maskDataUrl }))`). In the
assoc-list model a prepended entry shadows any older one for the same key,
like the spread overwrite. -/
def saveMaskOverride (elementId maskDataUrl : String)
    (overrides : List (String × String)) : List (String × String) :=
  (elementId, maskDataUrl) :: overrides

/-- The first (and only) walls element the scanner emits. -/
def elWalls0 : SceneElement :=
  { id := elementIdOf "walls" 0, type := "walls", pointsNorm := [(0, 0), (1, 0), (1, 1)] }

/-- A scene holding just that walls element. -/
def sceneWalls0 : SceneGraph := { elements := [elWalls0] }

/-- The override map after the user corrects the walls mask in the editor. -/
def ovWalls0 : List (String × String) := saveMaskOverride elWalls0.id "corrected.png" []

/-- The wall-paint module of the options catalog, targeting walls elements. -/
def mWallsPaint : BuilderModule :=
  { featureId := "walls_paint", targetElementTypes := ["walls"] }

/-- C5: evaluation at the failing input. After the user saves a mask
correction for the walls element (stored under the element id `walls_0`),
the live compositor's per-frame draw does clip with that override, but the
overlay baker's `buildMaskCanvas` looks the override map up under the
module's `featureId` (`walls_paint`) — a key the editor never writes, since
scan ids are `` `${type}_${i}` `` — finds nothing, and silently bakes from
the polygon mask. The claim that baking uses the existing override
exclusively is false of the code, contradicting `buildMaskCanvas`'s own
"If the user has corrected this surface mask, prefer it" and the purpose of
passing `maskOverrides` into the rebake. -/
theorem mask_override_ignored_by_baking :
    drawElementMask ovWalls0 6 elWalls0 = .overrideImg "corrected.png" ∧
    ovWalls0.lookup mWallsPaint.featureId = none ∧
    buildMaskCanvas ovWalls0 sceneWalls0 mWallsPaint =
      some (.fromPolygons [[(0, 0), (1, 0), (1, 1)]]) := by
  refine ⟨rfl, rfl, rfl⟩

end MaskPrec

namespace Overlay

/-- An overlay-eligible module as seen by `buildOverlayAssetsClient`:
its option count and whether `buildMaskCanvas` produced a canvas for it
(`masked = false` is the skip path: empty mask, no elements, or override
racing — the module's options are skipped but still advance progress). -/
structure OvModule where
  featureId : String
  opts : ℕ
  masked : Bool
deriving DecidableEq, Repr

/-- `total ? done / total : 1` — the progress fraction reported. -/
def frac (done total : ℕ) : ℚ :=
  if total = 0 then 1 else (done : ℚ) / (total : ℚ)

/-- The sequence of `onProgress` values emitted while processing one module,
entered with `done` options already accounted for. A masked module reports
after each baked option; a skipped module reports once after advancing the
counter by its whole option count. -/
def moduleReports (total done : ℕ) (m : OvModule) : List ℚ :=
  if m.masked then (List.range m.opts).map (fun i => frac (done + i + 1) total)
  else [frac (done + m.opts) total]

/-- Sum of option counts (the loop's `total`). -/
def sumOpts (ms : List OvModule) : ℕ := (ms.map (·.opts)).sum

/-- All `onProgress` values emitted by the module loop, starting from a
counter value `done`. -/
def reportsAux (total : ℕ) : ℕ → List OvModule → List ℚ
  | _, [] => []
  | done, m :: ms => moduleReports total done m ++ reportsAux total (done + m.opts) ms

/-- The full `onProgress` sequence of `buildOverlayAssetsClient` over the
overlay-mode modules: the loop's reports followed by the final
`onProgress?.(1)`. -/
def buildProgressReports (ms : List OvModule) : List ℚ :=
  reportsAux (sumOpts ms) 0 ms ++ [1]

lemma frac_mono {d1 d2 : ℕ} (total : ℕ) (h : d1 ≤ d2) : frac d1 total ≤ frac d2 total := by
  unfold frac
  split_ifs with ht
  · exact le_refl 1
  · have ht0 : (0 : ℚ) < (total : ℚ) := by
      exact_mod_cast Nat.pos_of_ne_zero ht
    exact (div_le_div_iff_of_pos_right ht0).mpr (by exact_mod_cast h)

lemma frac_self (t : ℕ) : frac t t = 1 := by
  unfold frac
  split_ifs with ht
  · rfl
  · rw [div_self (by exact_mod_cast ht)]

lemma sumOpts_cons (m : OvModule) (ms : List OvModule) :
    sumOpts (m :: ms) = m.opts + sumOpts ms := by
  simp [sumOpts]

lemma moduleReports_bounds (total done : ℕ) (m : OvModule) :
    ∀ x ∈ moduleReports total done m,
      frac done total ≤ x ∧ x ≤ frac (done + m.opts) total := by
  intro x hx
  unfold moduleReports at hx
  split_ifs at hx with hm
  · obtain ⟨i, hi, rfl⟩ := List.mem_map.mp hx
    have hi' : i < m.opts := List.mem_range.mp hi
    exact ⟨frac_mono total (by omega), frac_mono total (by omega)⟩
  · simp only [List.mem_singleton] at hx
    subst hx
    exact ⟨frac_mono total (by omega), le_refl _⟩

lemma moduleReports_pairwise (total done : ℕ) (m : OvModule) :
    (moduleReports total done m).Pairwise (· ≤ ·) := by
  unfold moduleReports
  split_ifs with hm
  · rw [List.pairwise_map]
    exact (List.pairwise_lt_range m.opts).imp (fun hab => frac_mono total (by omega))
  · simp

lemma reportsAux_spec (total : ℕ) (ms : List OvModule) :
    ∀ done : ℕ,
      (∀ x ∈ reportsAux total done ms,
        frac done total ≤ x ∧ x ≤ frac (done + sumOpts ms) total) ∧
      (reportsAux total done ms).Pairwise (· ≤ ·) := by
  induction ms with
  | nil =>
      intro done
      exact ⟨by simp [reportsAux], by simp [reportsAux]⟩
  | cons m ms ih =>
      intro done
      constructor
      · intro x hx
        simp only [reportsAux, List.mem_append] at hx
        rcases hx with h | h
        · have hb := moduleReports_bounds total done m x h
          refine ⟨hb.1, le_trans hb.2 (frac_mono total ?_)⟩
          rw [sumOpts_cons]
          omega
        · have hb := (ih (done + m.opts)).1 x h
          refine ⟨le_trans (frac_mono total (by omega)) hb.1,
            le_trans hb.2 (frac_mono total ?_)⟩
          rw [sumOpts_cons]
          omega
      · simp only [reportsAux]
        refine List.pairwise_append.mpr
          ⟨moduleReports_pairwise total done m, (ih (done + m.opts)).2, ?_⟩
        intro x hx y hy
        exact le_trans (moduleReports_bounds total done m x hx).2
          ((ih (done + m.opts)).1 y hy).1

/-- C8: the `onProgress` sequence of the overlay precompute is non-decreasing,
every reported fraction is at most 1, the sequence ends at exactly 1 once
every (overlay module, option) pair is baked or skipped, and a skipped module
advances progress exactly as a baked one does: with at least one option, the
last report while processing the module is `(done + opts) / total` whether the
module was baked or skipped. -/
theorem overlay_progress_monotone_complete (ms : List OvModule) :
    (buildProgressReports ms).Pairwise (· ≤ ·) ∧
    (buildProgressReports ms).getLast? = some 1 ∧
    (∀ p ∈ buildProgressReports ms, p ≤ 1) ∧
    (∀ (total done : ℕ) (m : OvModule), 1 ≤ m.opts →
        (moduleReports total done m).getLast? = some (frac (done + m.opts) total)) := by
  have hbound : ∀ x ∈ reportsAux (sumOpts ms) 0 ms, x ≤ 1 := by
    intro x hx
    have := (reportsAux_spec (sumOpts ms) ms 0).1 x hx
    calc x ≤ frac (0 + sumOpts ms) (sumOpts ms) := this.2
      _ = 1 := by rw [Nat.zero_add, frac_self]
  refine ⟨?_, ?_, ?_, ?_⟩
  · unfold buildProgressReports
    refine List.pairwise_append.mpr
      ⟨(reportsAux_spec (sumOpts ms) ms 0).2, by simp, ?_⟩
    intro x hx y hy
    simp only [List.mem_singleton] at hy
    subst hy
    exact hbound x hx
  · unfold buildProgressReports
    exact List.getLast?_concat _
  · intro p hp
    unfold buildProgressReports at hp
    rcases List.mem_append.mp hp with h | h
    · exact hbound p h
    · simp only [List.mem_singleton] at h
      subst h
      exact le_refl 1
  · intro total done m h1
    unfold moduleReports
    split_ifs with hm
    · obtain ⟨k, hk⟩ := Nat.exists_eq_add_of_le h1
      rw [hk, Nat.add_comm 1 k, List.range_succ, List.map_append]
      simp [List.getLast?_concat, Nat.add_assoc]
    · rfl

/-- Two overlay modules: `walls` baked with 2 options, `flooring` skipped
(empty mask) with 1 option. -/
def msSample : List OvModule :=
  [{ featureId := "walls", opts := 2, masked := true },
   { featureId := "flooring", opts := 1, masked := false }]

/-- Witness for `overlay_progress_monotone_complete` on `msSample`. -/
theorem overlay_progress_witness :
    (buildProgressReports msSample).Pairwise (· ≤ ·) ∧
    (buildProgressReports msSample).getLast? = some 1 ∧
    (moduleReports 3 0 { featureId := "walls", opts := 2, masked := true }).getLast? =
      some (frac (0 + 2) 3) :=
  ⟨(overlay_progress_monotone_complete msSample).1,
   (overlay_progress_monotone_complete msSample).2.1,
   (overlay_progress_monotone_complete msSample).2.2.2 3 0
     { featureId := "walls", opts := 2, masked := true } (by norm_num)⟩

end Overlay
